import Mathlib

/-!
Verification of the spellbook ISA conformance harness: the assertion
ledger and test-group registry of the RV32I self-test program, the
Makefile's architecture-string assembly and toolchain detection, and the
`verify-instructions` coverage verifier.
-/

/-- 2^32, the modulus of the program's `uint32_t` values and counters. -/
def U32 : Nat := 4294967296

/-- 32-bit wrapping addition (C unsigned / two's-complement addition). -/
def add32 (a b : Nat) : Nat := (a + b) % U32

/-- 32-bit wrapping subtraction. -/
def sub32 (a b : Nat) : Nat := (a % U32 + (U32 - b % U32)) % U32

/-- Bitwise and of 32-bit patterns. -/
def and32 (a b : Nat) : Nat := a &&& b

/-- Bitwise or of 32-bit patterns. -/
def or32 (a b : Nat) : Nat := a ||| b

/-- Bitwise xor of 32-bit patterns. -/
def xor32 (a b : Nat) : Nat := a ^^^ b

/-- Logical shift left on 32-bit patterns (shift amount taken mod 32 as in RV32I). -/
def sll32 (a n : Nat) : Nat := ((a % U32) <<< (n % 32)) % U32

/-- Logical shift right on 32-bit patterns. -/
def srl32 (a n : Nat) : Nat := (a % U32) >>> (n % 32)

/-- The signed (two's-complement) reading of a 32-bit pattern. -/
def toSigned32 (x : Nat) : Int :=
  if x % U32 < 2147483648 then ((x % U32 : Nat) : Int) else ((x % U32 : Nat) : Int) - (U32 : Int)

/-- The 32-bit pattern of an integer (two's-complement truncation). -/
def ofInt32 (i : Int) : Nat := (i % (U32 : Int)).toNat

/-- Arithmetic shift right on 32-bit patterns (floor division by a power of two). -/
def sra32 (a n : Nat) : Nat := ofInt32 (Int.fdiv (toSigned32 a) ((2 : Int) ^ (n % 32)))

/-- The C expression `(a < b) ? 1 : 0` on signed 32-bit values (SLT). -/
def slt32 (a b : Nat) : Nat := if toSigned32 a < toSigned32 b then 1 else 0

/-- The C expression `(a < b) ? 1 : 0` on unsigned 32-bit values (SLTU). -/
def sltu32 (a b : Nat) : Nat := if a % U32 < b % U32 then 1 else 0

/-- Sign-extension of a byte pattern to a 32-bit pattern (LB / `(int32_t)(int8_t)`). -/
def sext8 (b : Nat) : Nat :=
  ofInt32 (if b % 256 < 128 then ((b % 256 : Nat) : Int) else ((b % 256 : Nat) : Int) - 256)

/-- Zero-extension of a byte pattern (LBU / `(int32_t)(uint8_t)`). -/
def zext8 (b : Nat) : Nat := b % 256

/-- Sign-extension of a halfword pattern (LH / `(int32_t)(int16_t)`). -/
def sext16 (h : Nat) : Nat :=
  ofInt32 (if h % 65536 < 32768 then ((h % 65536 : Nat) : Int) else ((h % 65536 : Nat) : Int) - 65536)

/-- Zero-extension of a halfword pattern (LHU / `(int32_t)(uint16_t)`). -/
def zext16 (h : Nat) : Nat := h % 65536

/-- The assertion ledger: the program's three volatile `uint32_t` globals
`test_result`, `test_passed`, `test_failed` (test_rv32i.c). -/
structure Ledger where
  test_result : Nat
  test_passed : Nat
  test_failed : Nat
  deriving Repr, DecidableEq

/-- The counters as `main` initializes them: all zero. -/
def resetLedger : Ledger := ⟨0, 0, 0⟩

/-- The `ASSERT(condition, name)` macro: on success increment `test_passed`,
on failure increment `test_failed` and set `test_result = 1`.  The counters
are `uint32_t`, so the increments wrap modulo 2^32.  The macro never aborts. -/
def record (L : Ledger) (condition : Bool) : Ledger :=
  if condition then
    { L with test_passed := (L.test_passed + 1) % U32 }
  else
    { L with test_failed := (L.test_failed + 1) % U32, test_result := 1 }

/-- Running a sequence of assertion outcomes against the ledger, in order. -/
def runAsserts (L : Ledger) (conds : List Bool) : Ledger := conds.foldl record L

/-- `test_arithmetic` from test_rv32i.c: 12 assertions with `a = 10`, `b = 5`. -/
def test_arithmetic : List Bool :=
  let a : Nat := 10
  let b : Nat := 5
  let r1 := add32 a b
  let r2 := sub32 a b
  let r3 := and32 a b
  let r4 := or32 a b
  let r5 := xor32 a b
  let r6 := sll32 a 2
  let r7 := srl32 a 2
  let shift_amt : Nat := 3
  let r8 := srl32 (sll32 a 3) shift_amt
  let neg : Nat := ofInt32 (-16)
  let r9 := sra32 neg 2
  let r10 := slt32 a b
  let r11 := slt32 b a
  let ua : Nat := 0xFFFFFFFF
  let ub : Nat := 5
  let r12 := sltu32 ua ub
  [r1 == 15, r2 == 5, r3 == 0, r4 == 15, r5 == 15, r6 == 40, r7 == 2,
   r8 == 10, r9 == ofInt32 (-4), r10 == 0, r11 == 1, r12 == 0]

/-- `test_memory`: 6 assertions over a word array, a byte array and a
halfword array (values stored as bit patterns). -/
def test_memory : List Bool :=
  let array0 : List Nat := [0, 1, 2, 3, 4, 5, 6, 7]
  let v1 := array0.getD 3 0
  let array1 := array0.set 0 42
  let byte_array : List Nat := [0xFF, 0x00, 0x7F, 0x80]
  let bv1 := sext8 (byte_array.getD 0 0)
  let bv2 := zext8 (byte_array.getD 0 0)
  let half_array : List Nat := [0xFFFF, 0x0000, 0x7FFF, 0x8000]
  let hv1 := sext16 (half_array.getD 0 0)
  let hv2 := zext16 (half_array.getD 0 0)
  [v1 == 3, array1.getD 0 0 == 42, bv1 == ofInt32 (-1), bv2 == 255,
   hv1 == ofInt32 (-1), hv2 == 65535]

/-- `test_explicit_instructions`: 7 assertions driven by inline-asm
lb/lh/sb/sh/srl/sll/sra; the instruction effects are modelled by their
RV32I semantics (little-endian byte buffer). -/
def test_explicit_instructions : List Bool :=
  let buf0 : List Nat := [0x12, 0x34, 0x56, 0x78, 0x9a, 0xbc, 0xde, 0xff]
  let c1 := sext8 (buf0.getD 4 0) == sext8 0x9a
  let buf1 := (buf0.set 0 0xff).set 1 0xff
  let c2 := sext16 (buf1.getD 0 0 + 256 * buf1.getD 1 0) == ofInt32 (-1)
  let buf2 := buf1.set 2 (0xAB % 256)
  let c3 := buf2.getD 2 0 == 0xAB
  let buf3 := (buf2.set 4 (0x1234 % 256)).set 5 (0x1234 / 256 % 256)
  let c4 := buf3.getD 4 0 == 0x34 && buf3.getD 5 0 == 0x12
  let c5 := srl32 0x80000000 4 == 0x08000000
  let c6 := sll32 1 5 == 32
  let c7 := sra32 (ofInt32 (-64)) 3 == ofInt32 (-8)
  [c1, c2, c3, c4, c5, c6, c7]

/-- `test_branches`: 6 assertions, a counter incremented by each taken
branch condition and checked after each increment. -/
def test_branches : List Bool :=
  let a : Nat := 10
  let b : Nat := 5
  let count0 : Nat := 0
  let count1 := if a == a then add32 count0 1 else count0
  let c1 := count1 == 1
  let count2 := if a != b then add32 count1 1 else count1
  let c2 := count2 == 2
  let count3 := if toSigned32 b < toSigned32 a then add32 count2 1 else count2
  let c3 := count3 == 3
  let count4 := if toSigned32 b ≤ toSigned32 a then add32 count3 1 else count3
  let c4 := count4 == 4
  let ua : Nat := 5
  let ub : Nat := 10
  let count5 := if ua < ub then add32 count4 1 else count4
  let c5 := count5 == 5
  let count6 := if ua ≤ ub then add32 count5 1 else count5
  let c6 := count6 == 6
  [c1, c2, c3, c4, c5, c6]

/-- `test_branches` with its final assertion deliberately inverted:
it asserts `count == 99` where the true count is 6 (spec Scenario D). -/
def test_branches_inverted : List Bool :=
  let a : Nat := 10
  let b : Nat := 5
  let count0 : Nat := 0
  let count1 := if a == a then add32 count0 1 else count0
  let c1 := count1 == 1
  let count2 := if a != b then add32 count1 1 else count1
  let c2 := count2 == 2
  let count3 := if toSigned32 b < toSigned32 a then add32 count2 1 else count2
  let c3 := count3 == 3
  let count4 := if toSigned32 b ≤ toSigned32 a then add32 count3 1 else count3
  let c4 := count4 == 4
  let ua : Nat := 5
  let ub : Nat := 10
  let count5 := if ua < ub then add32 count4 1 else count4
  let c5 := count5 == 5
  let count6 := if ua ≤ ub then add32 count5 1 else count5
  let c6 := count6 == 99
  [c1, c2, c3, c4, c5, c6]

/-- `test_loops`: a for loop and a while loop each summing 0..9. -/
def test_loops : List Bool :=
  let sum1 := (List.range 10).foldl (fun s i => add32 s i) 0
  let c1 := sum1 == 45
  let sum2 := (List.range 10).foldl (fun s i => add32 s i) 0
  [c1, sum2 == 45]

/-- `add_function` from test_rv32i.c. -/
def add_function (a b : Nat) : Nat := add32 a b

/-- `recursive_sum`: `if n <= 0 then 0 else n + recursive_sum (n - 1)`,
here on the nonnegative arguments it is called with. -/
def recursive_sum : Nat → Nat
  | 0 => 0
  | n + 1 => add32 (n + 1) (recursive_sum n)

/-- `test_functions`: a direct call and a recursive call. -/
def test_functions : List Bool :=
  [add_function 7 8 == 15, recursive_sum 10 == 55]

/-- `test_immediates`: 7 assertions with `a = 100`. -/
def test_immediates : List Bool :=
  let a : Nat := 100
  [add32 a 50 == 150, and32 a 0x0F == 4, or32 a 0xF0 == 0xF4, xor32 a 0xFF == 0x9B,
   slt32 a 200 == 1, slt32 a 50 == 0, sltu32 100 200 == 1]

/-- `test_upper_immediates`: two LUI-pattern checks and the AUIPC check.
The two consecutive `auipc` results are modelled by their RV32I semantics:
the first yields the (arbitrary) program counter `pc`, the second `pc + 4`. -/
def test_upper_immediates (pc : Nat) : List Bool :=
  let value1 : Nat := 0x12345000
  let c1 := srl32 value1 12 == 0x12345
  let value2 : Nat := 0xABCD0000
  let c2 := srl32 value2 16 == 0xABCD
  let pc1 := pc % U32
  let pc2 := add32 pc1 4
  [c1, c2, sub32 pc2 pc1 == 4]

/-- `test_jumps`: a direct call and a function-pointer call to
`jump_target`, each of which sets the callback flag to 1. -/
def test_jumps : List Bool :=
  let flag1 : Nat := 1
  let c1 := flag1 == 1
  let flag2 : Nat := 1
  [c1, flag2 == 1]

/-- The test group registry: the nine groups `main` runs, in order. -/
def registry (pc : Nat) : List Bool :=
  test_arithmetic ++ test_memory ++ test_explicit_instructions ++ test_branches ++
  test_loops ++ test_functions ++ test_immediates ++ test_upper_immediates pc ++ test_jumps

/-- The registry with the inverted `test_branches` group (Scenario D);
all other groups unchanged. -/
def registryInverted (pc : Nat) : List Bool :=
  test_arithmetic ++ test_memory ++ test_explicit_instructions ++ test_branches_inverted ++
  test_loops ++ test_functions ++ test_immediates ++ test_upper_immediates pc ++ test_jumps

/-- The harness run: `main` resets the counters and runs every group. -/
def mainRun (pc : Nat) : Ledger := runAsserts resetLedger (registry pc)

lemma record_true (L : Ledger) :
    record L true = { L with test_passed := (L.test_passed + 1) % U32 } := rfl

lemma record_false (L : Ledger) :
    record L false = { L with test_failed := (L.test_failed + 1) % U32, test_result := 1 } := rfl

lemma runAsserts_cons (L : Ledger) (c : Bool) (cs : List Bool) :
    runAsserts L (c :: cs) = runAsserts (record L c) cs := rfl

lemma runAsserts_result (conds : List Bool) : ∀ L : Ledger,
    (runAsserts L conds).test_result = if false ∈ conds then 1 else L.test_result := by
  induction conds with
  | nil => intro L; simp [runAsserts]
  | cons c cs ih =>
    intro L
    cases c with
    | true =>
      rw [runAsserts_cons, ih, record_true]
      simp
    | false =>
      rw [runAsserts_cons, ih, record_false]
      by_cases hf : false ∈ cs <;> simp [hf]

lemma runAsserts_failed (conds : List Bool) : ∀ L : Ledger, L.test_failed < U32 →
    (runAsserts L conds).test_failed = (L.test_failed + conds.count false) % U32 := by
  induction conds with
  | nil =>
    intro L hL
    simp [runAsserts, Nat.mod_eq_of_lt hL]
  | cons c cs ih =>
    intro L hL
    cases c with
    | true =>
      rw [runAsserts_cons, record_true, ih _ (by simpa using hL)]
      simp [List.count_cons]
    | false =>
      have hlt : ((record L false).test_failed) < U32 := by
        rw [record_false]
        exact Nat.mod_lt _ (by norm_num [U32])
      rw [runAsserts_cons, ih _ hlt, record_false]
      simp only [List.count_cons]
      rw [Nat.mod_add_mod]
      congr 1
      simp
      omega

lemma runAsserts_passed (conds : List Bool) : ∀ L : Ledger, L.test_passed < U32 →
    (runAsserts L conds).test_passed = (L.test_passed + conds.count true) % U32 := by
  induction conds with
  | nil =>
    intro L hL
    simp [runAsserts, Nat.mod_eq_of_lt hL]
  | cons c cs ih =>
    intro L hL
    cases c with
    | false =>
      rw [runAsserts_cons, record_false, ih _ (by simpa using hL)]
      simp [List.count_cons]
    | true =>
      have hlt : ((record L true).test_passed) < U32 := by
        rw [record_true]
        exact Nat.mod_lt _ (by norm_num [U32])
      rw [runAsserts_cons, ih _ hlt, record_true]
      simp only [List.count_cons]
      rw [Nat.mod_add_mod]
      congr 1
      simp
      omega

lemma count_true_add_count_false (conds : List Bool) :
    conds.count true + conds.count false = conds.length := by
  induction conds with
  | nil => simp
  | cons c cs ih =>
    cases c <;> simp [List.count_cons] <;> omega

lemma sum_counts_of_reset (conds : List Bool) (h : conds.length < U32) :
    (runAsserts resetLedger conds).test_passed + (runAsserts resetLedger conds).test_failed =
      conds.length := by
  have hp : (runAsserts resetLedger conds).test_passed = conds.count true := by
    rw [runAsserts_passed conds resetLedger (by norm_num [resetLedger, U32])]
    simp [resetLedger]
    exact Nat.mod_eq_of_lt (lt_of_le_of_lt (List.count_le_length _ _) h)
  have hf : (runAsserts resetLedger conds).test_failed = conds.count false := by
    rw [runAsserts_failed conds resetLedger (by norm_num [resetLedger, U32])]
    simp [resetLedger]
    exact Nat.mod_eq_of_lt (lt_of_le_of_lt (List.count_le_length _ _) h)
  rw [hp, hf, count_true_add_count_false]

/-- C1: after the counters are reset, for any sequence of recorded
assertion outcomes (of any length a run can reach: fewer than 2^32
records), the status flag `test_result` is 0 iff the `test_failed`
counter is 0, and the status is nonzero exactly when at least one
recorded assertion failed. -/
theorem ledger_status_iff_failed (conds : List Bool) (h : conds.length < U32) :
    ((runAsserts resetLedger conds).test_result = 0 ↔
      (runAsserts resetLedger conds).test_failed = 0) ∧
    ((runAsserts resetLedger conds).test_result ≠ 0 ↔ false ∈ conds) := by
  have hr : (runAsserts resetLedger conds).test_result =
      if false ∈ conds then 1 else 0 := by
    rw [runAsserts_result]
    rfl
  have hf : (runAsserts resetLedger conds).test_failed = conds.count false := by
    rw [runAsserts_failed conds resetLedger (by norm_num [resetLedger, U32])]
    simp [resetLedger]
    exact Nat.mod_eq_of_lt (lt_of_le_of_lt (List.count_le_length _ _) h)
  rw [hr, hf]
  by_cases hm : false ∈ conds
  · simp [hm, List.count_eq_zero]
  · simp [hm, List.count_eq_zero]

/-- Witness for C1 at the concrete record sequence `[true, false, true]`. -/
theorem ledger_status_iff_failed_witness :
    ((runAsserts resetLedger [true, false, true]).test_result = 0 ↔
      (runAsserts resetLedger [true, false, true]).test_failed = 0) ∧
    ((runAsserts resetLedger [true, false, true]).test_result ≠ 0 ↔
      false ∈ [true, false, true]) :=
  ledger_status_iff_failed [true, false, true] (by norm_num [U32])

lemma test_upper_immediates_eq (pc : Nat) : test_upper_immediates pc = [true, true, true] := by
  have h3 : sub32 (add32 (pc % U32) 4) (pc % U32) = 4 := by
    unfold sub32 add32 U32
    omega
  simp only [test_upper_immediates, h3]
  decide

/-- C2: the registry statically contains 47 assertions; after the reset,
at every intermediate point of the run (every prefix of the record
sequence) `test_passed + test_failed` equals the number of assertions
recorded so far, and at completion it equals 47. -/
theorem registry_sum_counts (pc n : Nat) :
    (registry pc).length = 47 ∧
    (runAsserts resetLedger ((registry pc).take n)).test_passed +
      (runAsserts resetLedger ((registry pc).take n)).test_failed =
      ((registry pc).take n).length ∧
    (mainRun pc).test_passed + (mainRun pc).test_failed = 47 := by
  have hlen : (registry pc).length = 47 := by
    simp [registry, test_arithmetic, test_memory, test_explicit_instructions,
      test_branches, test_loops, test_functions, test_immediates,
      test_upper_immediates, test_jumps]
  refine ⟨hlen, ?_, ?_⟩
  · apply sum_counts_of_reset
    rw [List.length_take, hlen]
    unfold U32
    omega
  · have h := sum_counts_of_reset (registry pc) (by rw [hlen]; norm_num [U32])
    rw [hlen] at h
    exact h

/-- C3: with the final `test_branches` assertion inverted to
`count == 99` (true count 6), the run still executes every group: it
ends with `test_failed = 1 ≥ 1`, `test_result ≠ 0`, all 46 other
assertions still pass, and every assertion of the groups after
`test_branches` evaluates to true (each later group contributes its own
passing assertions). -/
theorem registry_inverted_failure_isolated (pc : Nat) :
    1 ≤ (runAsserts resetLedger (registryInverted pc)).test_failed ∧
    (runAsserts resetLedger (registryInverted pc)).test_result ≠ 0 ∧
    (runAsserts resetLedger (registryInverted pc)).test_passed = 46 ∧
    (test_loops ++ test_functions ++ test_immediates ++
      test_upper_immediates pc ++ test_jumps).all (fun b => b) = true := by
  have h := test_upper_immediates_eq pc
  simp only [registryInverted, h]
  decide

/-- A word constituent in the POSIX regex sense used by `grep -E`:
alphanumeric or underscore. -/
def isWordChar (c : Char) : Bool := c.isAlphanum || c == '_'

/-- `prefixThenBoundary w l`: `l` starts with `w` and the character of `l`
right after that occurrence, if any, is not a word character (the closing
word boundary of the pattern). -/
def prefixThenBoundary : List Char → List Char → Bool
  | [], [] => true
  | [], c :: _ => !isWordChar c
  | _ :: _, [] => false
  | a :: w, c :: l => a == c && prefixThenBoundary w l

/-- The opening word boundary holds when the preceding character is absent
or not a word character. -/
def boundaryBefore : Option Char → Bool
  | none => true
  | some c => !isWordChar c

/-- Scanner for the word-boundary pattern of the Makefile's
`grep -qE "\b$insn\b"` (for the all-word-character mnemonics it is used
with): try a boundary-delimited occurrence at every position of the line,
remembering the previous character. -/
def grepWordAux (w : List Char) : Option Char → List Char → Bool
  | prev, [] => boundaryBefore prev && prefixThenBoundary w []
  | prev, c :: rest =>
    (boundaryBefore prev && prefixThenBoundary w (c :: rest)) || grepWordAux w (some c) rest

/-- One line of the dump matches the word-boundary pattern for `w`. -/
def lineMatchesWord (w line : String) : Bool := grepWordAux w.toList none line.toList

/-- `grep -qE "\b$insn\b" $(DUMP)`: some line of the listing matches. -/
def mnemonicPresent (w : String) (listing : List String) : Bool :=
  listing.any (fun line => lineMatchesWord w line)

/-- One iteration of the `verify-instructions` loop: if the mnemonic is
not present, echo a MISSING line and increment the `missing` counter. -/
def verifyStep (listing : List String) (acc : List String × Nat) (insn : String) :
    List String × Nat :=
  if mnemonicPresent insn listing then acc else (acc.1 ++ [insn], acc.2 + 1)

/-- The whole `for insn in ...` loop of `verify-instructions`: the echoed
missing mnemonics in input order, and the final `missing` counter. -/
def verifyRun (required listing : List String) : List String × Nat :=
  required.foldl (verifyStep listing) ([], 0)

/-- The enumerated missing mnemonics, in the input order of `required`. -/
def missingReport (required listing : List String) : List String :=
  (verifyRun required listing).1

/-- The final value of the shell variable `missing`. -/
def missingCount (required listing : List String) : Nat :=
  (verifyRun required listing).2

/-- The check succeeds iff the `missing` counter is zero. -/
def coverageOk (required listing : List String) : Bool :=
  missingCount required listing == 0

/-- The exit status of `verify-instructions`: 0 when `missing -eq 0`,
otherwise 1 (the `exit 1` branch). -/
def coverageExit (required listing : List String) : Nat :=
  if missingCount required listing == 0 then 0 else 1

/-- The diagnostic lines the target prints after the coverage header: one
`MISSING:` line per absent mnemonic, then the summary line. -/
def coverageOutput (required listing : List String) : List String :=
  (missingReport required listing).map (fun insn => "  MISSING: " ++ insn) ++
  (if missingCount required listing == 0 then
    ["  All RV32I instructions present in dump."]
  else
    ["  " ++ toString (missingCount required listing) ++ " instruction(s) not found."])

/-- The last character before a candidate occurrence: the last of the
preceding segment `pre`, or the remembered previous character when `pre`
is empty. -/
def lastOr (prev : Option Char) : List Char → Option Char
  | [] => prev
  | c :: l => lastOr (some c) l

/-- Specification-side notion of presence: `w` occurs in the line as a
standalone token, i.e. the line splits as `pre ++ w ++ post` where `pre`
does not end and `post` does not begin with a word character. -/
def standaloneTokenOcc (w line : List Char) : Prop :=
  ∃ pre post : List Char, line = pre ++ w ++ post ∧
    (∀ c, pre.getLast? = some c → isWordChar c = false) ∧
    (∀ c, post.head? = some c → isWordChar c = false)

lemma prefixThenBoundary_iff (w : List Char) : ∀ l : List Char,
    prefixThenBoundary w l = true ↔
      ∃ post, l = w ++ post ∧ ∀ c, post.head? = some c → isWordChar c = false := by
  induction w with
  | nil =>
    intro l
    cases l with
    | nil => simp [prefixThenBoundary]
    | cons c r => simp [prefixThenBoundary]
  | cons a w ih =>
    intro l
    cases l with
    | nil => simp [prefixThenBoundary]
    | cons c r =>
      simp only [prefixThenBoundary, Bool.and_eq_true, beq_iff_eq, ih, List.cons_append,
        List.cons.injEq]
      constructor
      · rintro ⟨hac, post, hr, hpost⟩
        exact ⟨post, ⟨hac.symm, hr⟩, hpost⟩
      · rintro ⟨post, ⟨hca, hr⟩, hpost⟩
        exact ⟨hca.symm, post, hr, hpost⟩

lemma lastOr_cons (prev : Option Char) (c : Char) (l : List Char) :
    lastOr prev (c :: l) = lastOr (some c) l := rfl

lemma lastOr_eq_getLast? : ∀ (l : List Char) (prev : Option Char),
    lastOr prev l = match l.getLast? with | some c => some c | none => prev := by
  intro l
  induction l with
  | nil => intro prev; rfl
  | cons c l ih =>
    intro prev
    rw [lastOr_cons, ih]
    cases l with
    | nil => rfl
    | cons d r =>
      rw [List.getLast?_cons_cons]
      cases h : (d :: r).getLast? with
      | none =>
        have hs := List.getLast?_isSome (l := d :: r)
        rw [h] at hs
        simp at hs
      | some e => rfl

lemma grepWordAux_iff (w : List Char) : ∀ (line : List Char) (prev : Option Char),
    grepWordAux w prev line = true ↔
      ∃ pre post, line = pre ++ w ++ post ∧
        boundaryBefore (lastOr prev pre) = true ∧
        ∀ c, post.head? = some c → isWordChar c = false := by
  intro line
  induction line with
  | nil =>
    intro prev
    simp only [grepWordAux, Bool.and_eq_true, prefixThenBoundary_iff]
    constructor
    · rintro ⟨hb, post, hw, hpost⟩
      obtain ⟨hw1, hw2⟩ := List.append_eq_nil.mp hw.symm
      refine ⟨[], [], by simp [hw1], ?_, by simp⟩
      simpa [lastOr] using hb
    · rintro ⟨pre, post, heq, hb, hpost⟩
      have h0 : pre = [] ∧ w = [] ∧ post = [] := by
        have ha := List.append_eq_nil.mp heq.symm
        have h2 := List.append_eq_nil.mp ha.1
        exact ⟨h2.1, h2.2, ha.2⟩
      obtain ⟨h1, h2, h3⟩ := h0
      subst h1; subst h2; subst h3
      exact ⟨by simpa [lastOr] using hb, [], by simp, by simp⟩
  | cons c rest ih =>
    intro prev
    simp only [grepWordAux, Bool.or_eq_true, Bool.and_eq_true, prefixThenBoundary_iff, ih]
    constructor
    · rintro (⟨hb, post, heq, hpost⟩ | ⟨pre, post, heq, hb, hpost⟩)
      · exact ⟨[], post, by simpa using heq, by simpa [lastOr] using hb, hpost⟩
      · exact ⟨c :: pre, post, by simp [heq], by rwa [lastOr_cons], hpost⟩
    · rintro ⟨pre, post, heq, hb, hpost⟩
      cases pre with
      | nil =>
        exact Or.inl ⟨by simpa [lastOr] using hb, post, by simpa using heq, hpost⟩
      | cons c' pre' =>
        right
        rw [List.cons_append, List.cons_append, List.cons.injEq] at heq
        refine ⟨pre', post, heq.2, ?_, hpost⟩
        rw [← heq.1] at hb
        rwa [lastOr_cons] at hb

lemma boundaryBefore_lastOr_none (pre : List Char) :
    boundaryBefore (lastOr none pre) = true ↔
      ∀ c, pre.getLast? = some c → isWordChar c = false := by
  rw [lastOr_eq_getLast?]
  cases h : pre.getLast? with
  | none => simp [boundaryBefore]
  | some c => simp [boundaryBefore]

lemma lineMatchesWord_iff (w line : String) :
    lineMatchesWord w line = true ↔ standaloneTokenOcc w.toList line.toList := by
  unfold lineMatchesWord standaloneTokenOcc
  rw [grepWordAux_iff]
  refine exists_congr fun pre => exists_congr fun post => ?_
  rw [boundaryBefore_lastOr_none]

/-- C4: the verifier uses whole-token matching: a mnemonic counts as
present exactly when it occurs as a standalone, word-boundary-delimited
token on some line of the listing; in particular for `required = [sll]`
and the single listing line `slli a0, a1, 3` the verifier reports
`missing = [sll]` (the substring occurrence inside `slli` is no match). -/
theorem verifier_whole_token_matching :
    (∀ (m : String) (listing : List String),
      mnemonicPresent m listing = true ↔
        ∃ line ∈ listing, standaloneTokenOcc m.toList line.toList) ∧
    missingReport ["sll"] ["slli a0, a1, 3"] = ["sll"] ∧
    coverageOk ["sll"] ["slli a0, a1, 3"] = false := by
  refine ⟨?_, by decide, by decide⟩
  intro m listing
  unfold mnemonicPresent
  rw [List.any_eq_true]
  exact exists_congr fun line => and_congr_right fun _ => lineMatchesWord_iff m line

lemma verifyRun_foldl (listing : List String) : ∀ (required : List String)
    (acc : List String) (n : Nat),
    required.foldl (verifyStep listing) (acc, n) =
      (acc ++ required.filter (fun m => !mnemonicPresent m listing),
       n + (required.filter (fun m => !mnemonicPresent m listing)).length) := by
  intro required
  induction required with
  | nil => intro acc n; simp
  | cons r rs ih =>
    intro acc n
    by_cases h : mnemonicPresent r listing
    · rw [List.foldl_cons]
      have hstep : verifyStep listing (acc, n) r = (acc, n) := by
        simp [verifyStep, h]
      rw [hstep, ih]
      simp [List.filter_cons, h]
    · rw [List.foldl_cons]
      have hstep : verifyStep listing (acc, n) r = (acc ++ [r], n + 1) := by
        simp [verifyStep, h]
      rw [hstep, ih]
      simp [List.filter_cons, h]
      omega

lemma missingReport_eq_filter (required listing : List String) :
    missingReport required listing = required.filter (fun m => !mnemonicPresent m listing) := by
  unfold missingReport verifyRun
  rw [verifyRun_foldl]
  simp

lemma missingCount_eq_length (required listing : List String) :
    missingCount required listing =
      (required.filter (fun m => !mnemonicPresent m listing)).length := by
  unfold missingCount verifyRun
  rw [verifyRun_foldl]
  simp

/-- C5: the verifier's `ok` outcome is invariant under permuting the
required list, the missing report is exactly the order-preserving filter
of the absent mnemonics from `required`, and `ok` holds iff the missing
report is empty. -/
theorem verifier_order_semantics (required required' listing : List String)
    (hperm : required.Perm required') :
    coverageOk required listing = coverageOk required' listing ∧
    missingReport required listing = required.filter (fun m => !mnemonicPresent m listing) ∧
    (coverageOk required listing = true ↔ missingReport required listing = []) := by
  have hcount : missingCount required listing = missingCount required' listing := by
    rw [missingCount_eq_length, missingCount_eq_length]
    exact (hperm.filter (fun m => !mnemonicPresent m listing)).length_eq
  refine ⟨?_, missingReport_eq_filter required listing, ?_⟩
  · unfold coverageOk
    rw [hcount]
  · unfold coverageOk
    rw [missingCount_eq_length, missingReport_eq_filter]
    simp [List.length_eq_zero]

/-- Witness for C5 at a concrete permuted pair of required lists. -/
theorem verifier_order_semantics_witness :
    coverageOk ["add", "sub"] ["add x1, x2, x3"] =
      coverageOk ["sub", "add"] ["add x1, x2, x3"] ∧
    missingReport ["add", "sub"] ["add x1, x2, x3"] =
      ["add", "sub"].filter (fun m => !mnemonicPresent m ["add x1, x2, x3"]) ∧
    (coverageOk ["add", "sub"] ["add x1, x2, x3"] = true ↔
      missingReport ["add", "sub"] ["add x1, x2, x3"] = []) :=
  verifier_order_semantics ["add", "sub"] ["sub", "add"] ["add x1, x2, x3"]
    (List.Perm.swap "sub" "add" [])

/-- C6: the coverage-check action exits nonzero iff at least one required
mnemonic is absent from the listing; when it fails it prints one MISSING
line per absent mnemonic (in order) followed by the count summary, and
when every required mnemonic is present it exits zero and prints that all
mnemonics are present. -/
theorem coverage_action_exit_semantics (required listing : List String) :
    (coverageExit required listing ≠ 0 ↔
      ∃ m ∈ required, mnemonicPresent m listing = false) ∧
    (coverageExit required listing ≠ 0 →
      coverageOutput required listing =
        (required.filter (fun m => !mnemonicPresent m listing)).map
          (fun insn => "  MISSING: " ++ insn) ++
        ["  " ++ toString (missingCount required listing) ++ " instruction(s) not found."]) ∧
    (coverageExit required listing = 0 →
      coverageOutput required listing = ["  All RV32I instructions present in dump."]) := by
  have hzero : missingCount required listing = 0 ↔
      ∀ m ∈ required, ¬ mnemonicPresent m listing = false := by
    rw [missingCount_eq_length, List.length_eq_zero, List.filter_eq_nil_iff]
    simp
  refine ⟨?_, ?_, ?_⟩
  · unfold coverageExit
    by_cases h : missingCount required listing = 0
    · simp only [h]
      simp only [beq_self_eq_true, if_true]
      rw [hzero] at h
      simp only [ne_eq, not_true_eq_false, false_iff, not_exists]
      intro m hm
      exact (h m hm.1) hm.2
    · have hb : (missingCount required listing == 0) = false := by
        simpa using h
      simp only [hb, Bool.false_eq_true, if_false]
      rw [hzero] at h
      push_neg at h
      simp only [ne_eq, one_ne_zero, not_false_eq_true, true_iff]
      obtain ⟨m, hm, hmp⟩ := h
      exact ⟨m, hm, by simpa using hmp⟩
  · intro hne
    have h : (missingCount required listing == 0) = false := by
      by_contra hcon
      have : (missingCount required listing == 0) = true := by
        cases hb : (missingCount required listing == 0)
        · exact absurd hb hcon
        · rfl
      unfold coverageExit at hne
      rw [this] at hne
      simp at hne
    unfold coverageOutput
    rw [h, missingReport_eq_filter]
    simp
  · intro hz
    have h : (missingCount required listing == 0) = true := by
      unfold coverageExit at hz
      by_contra hcon
      have hb : (missingCount required listing == 0) = false := by
        cases hb : (missingCount required listing == 0)
        · rfl
        · exact absurd hb hcon
      rw [hb] at hz
      simp at hz
    have hc : missingCount required listing = 0 := by simpa using h
    have hrep : missingReport required listing = [] := by
      rw [missingReport_eq_filter]
      rw [missingCount_eq_length] at hc
      exact List.length_eq_zero.mp hc
    unfold coverageOutput
    rw [h, hrep]
    simp

/-- Witness for C6: a one-element required list absent from an empty
listing exits nonzero with the enumerated MISSING report, and a present
mnemonic exits zero with the all-present message. -/
theorem coverage_action_exit_semantics_witness :
    coverageExit ["add"] [] ≠ 0 ∧
    coverageOutput ["add"] [] =
      ["  MISSING: add", "  1 instruction(s) not found."] ∧
    coverageExit ["add"] ["add x1, x2, x3"] = 0 ∧
    coverageOutput ["add"] ["add x1, x2, x3"] =
      ["  All RV32I instructions present in dump."] := by
  refine ⟨by decide, ?_, by decide, ?_⟩
  · have h := (coverage_action_exit_semantics ["add"] []).2.1 (by decide)
    rw [h]
    decide
  · have h := (coverage_action_exit_semantics ["add"] ["add x1, x2, x3"]).2.2 (by decide)
    rw [h]

/-- The host environment the Makefile's toolchain probing observes: the
caller-supplied `TOOLCHAIN_PREFIX` override, which binaries `command -v`
finds on the search path, and which files `[ -f ... ]` finds. -/
structure ToolEnv where
  override : Option String
  onPath : String → Bool
  fileExists : String → Bool

/-- The `TOOLCHAIN_PREFIX ?= $(shell if ... fi)` logic of the Makefile:
override first, then the four candidate compilers on the search path in
order, then `riscv64-unknown-elf-gcc` in /opt/homebrew/bin and
/usr/local/bin, then the unverified fallback. -/
def detectToolchain (e : ToolEnv) : String :=
  match e.override with
  | some p => p
  | none =>
    if e.onPath "riscv64-unknown-elf-gcc" then "riscv64-unknown-elf-"
    else if e.onPath "riscv32-unknown-elf-gcc" then "riscv32-unknown-elf-"
    else if e.onPath "riscv64-linux-gnu-gcc" then "riscv64-linux-gnu-"
    else if e.onPath "riscv32-linux-gnu-gcc" then "riscv32-linux-gnu-"
    else if e.fileExists "/opt/homebrew/bin/riscv64-unknown-elf-gcc" then "riscv64-unknown-elf-"
    else if e.fileExists "/usr/local/bin/riscv64-unknown-elf-gcc" then "riscv64-unknown-elf-"
    else "riscv64-unknown-elf-"

/-- The candidate compiler binaries and the prefixes they stand for, in
detection priority order. -/
def toolchainCandidates : List (String × String) :=
  [("riscv64-unknown-elf-gcc", "riscv64-unknown-elf-"),
   ("riscv32-unknown-elf-gcc", "riscv32-unknown-elf-"),
   ("riscv64-linux-gnu-gcc", "riscv64-linux-gnu-"),
   ("riscv32-linux-gnu-gcc", "riscv32-linux-gnu-")]

/-- First candidate whose binary satisfies the probe, if any. -/
def firstHit (probe : String → Bool) : List (String × String) → Option String
  | [] => none
  | (bin, pre) :: rest => if probe bin then some pre else firstHit probe rest

/-- Detection as the claim words it: override; then the candidate
binaries on the search path in order; then the fixed directories
/opt/homebrew/bin and /usr/local/bin probed for the same candidate
binaries; then the fixed fallback. -/
def detectToolchainClaimed (e : ToolEnv) : String :=
  match e.override with
  | some p => p
  | none =>
    match firstHit e.onPath toolchainCandidates with
    | some p => p
    | none =>
      match firstHit (fun bin => e.fileExists ("/opt/homebrew/bin/" ++ bin)) toolchainCandidates with
      | some p => p
      | none =>
        match firstHit (fun bin => e.fileExists ("/usr/local/bin/" ++ bin)) toolchainCandidates with
        | some p => p
        | none => "riscv64-unknown-elf-"

/-- Detection as the amended claim words it: override; then the candidate
binaries on the search path in order; then the fixed directories probed
only for the first candidate's compiler `riscv64-unknown-elf-gcc`; then
the fixed fallback. -/
def detectToolchainAmended (e : ToolEnv) : String :=
  match e.override with
  | some p => p
  | none =>
    match firstHit e.onPath toolchainCandidates with
    | some p => p
    | none =>
      if e.fileExists "/opt/homebrew/bin/riscv64-unknown-elf-gcc" then "riscv64-unknown-elf-"
      else if e.fileExists "/usr/local/bin/riscv64-unknown-elf-gcc" then "riscv64-unknown-elf-"
      else "riscv64-unknown-elf-"

/-- A host with no candidate compiler on the search path and only the
32-bit bare-metal compiler installed in /opt/homebrew/bin. -/
def envOnlyHomebrew32 : ToolEnv :=
  { override := none,
    onPath := fun _ => false,
    fileExists := fun s => s == "/opt/homebrew/bin/riscv32-unknown-elf-gcc" }

/-- C7 counterexample: the Makefile does not probe the fixed directories
for all four candidate binaries.  On a host whose only toolchain is
`riscv32-unknown-elf-gcc` in /opt/homebrew/bin, the claimed policy would
detect `riscv32-unknown-elf-`, but the Makefile only looks for
`riscv64-unknown-elf-gcc` there and falls through to the fallback
`riscv64-unknown-elf-`. -/
theorem toolchain_claimed_policy_counterexample :
    detectToolchain envOnlyHomebrew32 = "riscv64-unknown-elf-" ∧
    detectToolchainClaimed envOnlyHomebrew32 = "riscv32-unknown-elf-" ∧
    detectToolchain envOnlyHomebrew32 ≠ detectToolchainClaimed envOnlyHomebrew32 := by
  refine ⟨rfl, rfl, ?_⟩
  decide

/-- C7 (amended): detection follows the fixed priority order, first match
wins: (1) the explicit override; (2) the four candidate prefixes on the
search path, in order; (3) the fixed directories /opt/homebrew/bin then
/usr/local/bin probed only for the first candidate's compiler
`riscv64-unknown-elf-gcc`; (4) otherwise the unverified fallback
`riscv64-unknown-elf-`. -/
theorem toolchain_detection_priority (e : ToolEnv) :
    detectToolchain e = detectToolchainAmended e := by
  obtain ⟨o, onp, fe⟩ := e
  cases o with
  | some p => rfl
  | none =>
    by_cases h1 : onp "riscv64-unknown-elf-gcc" <;>
      by_cases h2 : onp "riscv32-unknown-elf-gcc" <;>
        by_cases h3 : onp "riscv64-linux-gnu-gcc" <;>
          by_cases h4 : onp "riscv32-linux-gnu-gcc" <;>
            simp [detectToolchain, detectToolchainAmended, toolchainCandidates, firstHit,
              h1, h2, h3, h4]

/-- The Makefile's `FULL_ARCH` assembly:
`ifneq ($(ISA_EXTENSIONS),)` → `$(ARCH)$(ISA_EXTENSIONS)`, else `$(ARCH)`. -/
def FULL_ARCH (arch extensions : String) : String :=
  if extensions ≠ "" then arch ++ extensions else arch

/-- C8: for every base architecture string and every (possibly empty)
extension string, the resolved full architecture string is the plain
concatenation of base and extensions — no de-duplication, reordering or
validation — and with no extensions it is exactly the base string. -/
theorem full_arch_is_concatenation (arch extensions : String) :
    FULL_ARCH arch extensions = arch ++ extensions ∧
    FULL_ARCH arch "" = arch := by
  constructor
  · unfold FULL_ARCH
    by_cases h : extensions = ""
    · subst h
      simp
    · simp [h]
  · rfl

/-- Which instruction form a shift check targets: the immediate-operand
form (slli/srli/srai) or the register-operand form (sll/srl/sra). -/
inductive ShiftForm
  | immForm
  | regForm
  deriving DecidableEq, Repr

/-- Where a shift check's shift-amount operand comes from in the source:
a literal constant in the expression, a volatile variable, or an inline
asm register operand (an "r"-constrained input the compiler must place in
a register). -/
inductive AmountSource
  | litConst
  | volatileVar
  | asmRegOperand
  deriving DecidableEq, Repr

/-- One shift-instruction check of the registry: the ASSERT label, the
shift form it targets, and the source of its shift-amount operand. -/
structure ShiftCheck where
  label : String
  targetForm : ShiftForm
  amountSource : AmountSource
  deriving DecidableEq, Repr

/-- The shift checks of the test group registry, transcribed from the
source: `test_arithmetic` checks SLLI/SRLI/SRAI with literal amounts and
SRL with the volatile variable `shift_amt`; `test_explicit_instructions`
checks SRL/SLL/SRA through inline asm whose shift amounts are
"r"-constrained register operands. -/
def registryShiftChecks : List ShiftCheck :=
  [⟨"SLLI", ShiftForm.immForm, AmountSource.litConst⟩,
   ⟨"SRLI", ShiftForm.immForm, AmountSource.litConst⟩,
   ⟨"SRL", ShiftForm.regForm, AmountSource.volatileVar⟩,
   ⟨"SRAI", ShiftForm.immForm, AmountSource.litConst⟩,
   ⟨"SRL", ShiftForm.regForm, AmountSource.asmRegOperand⟩,
   ⟨"SLL", ShiftForm.regForm, AmountSource.asmRegOperand⟩,
   ⟨"SRA", ShiftForm.regForm, AmountSource.asmRegOperand⟩]

/-- C9: in every registry check that targets a register-form
(variable-operand) shift, the shift amount comes from a volatile variable
or an asm register operand — never from a literal constant folded by the
compiler. -/
theorem register_form_shift_amount_not_literal :
    ∀ c ∈ registryShiftChecks, c.targetForm = ShiftForm.regForm →
      (c.amountSource = AmountSource.volatileVar ∨
       c.amountSource = AmountSource.asmRegOperand) ∧
      c.amountSource ≠ AmountSource.litConst := by
  decide

/-- Witness for C9 at the register-form SRL check of `test_arithmetic`. -/
theorem register_form_shift_amount_not_literal_witness :
    ((ShiftCheck.mk "SRL" ShiftForm.regForm AmountSource.volatileVar).amountSource =
        AmountSource.volatileVar ∨
     (ShiftCheck.mk "SRL" ShiftForm.regForm AmountSource.volatileVar).amountSource =
        AmountSource.asmRegOperand) ∧
    (ShiftCheck.mk "SRL" ShiftForm.regForm AmountSource.volatileVar).amountSource ≠
      AmountSource.litConst :=
  register_form_shift_amount_not_literal
    (ShiftCheck.mk "SRL" ShiftForm.regForm AmountSource.volatileVar)
    (by decide) (by decide)

/-- The `for insn in ...` list of `verify-instructions`, in source order. -/
def requiredMnemonics : List String :=
  ["lb", "lh", "lw", "lbu", "lhu", "sb", "sh", "sw",
   "add", "addi", "sub", "and", "andi", "or", "ori", "xor", "xori",
   "sll", "slli", "srl", "srli", "sra", "srai",
   "slt", "slti", "sltu", "sltiu", "lui", "auipc", "jal", "jalr",
   "beq", "bne", "blt", "bge", "bltu", "bgeu"]

/-- C10: the required mnemonic set is exactly the fixed list of 37
mnemonics in the claimed order; the system mnemonics ecall, ebreak and
fence are never required; and any listing in which all 37 occur as
standalone tokens passes the coverage check (exit status 0), whatever
else it contains or omits. -/
theorem required_mnemonic_set_fixed :
    requiredMnemonics =
      ["lb", "lh", "lw", "lbu", "lhu", "sb", "sh", "sw",
       "add", "addi", "sub", "and", "andi", "or", "ori", "xor", "xori",
       "sll", "slli", "srl", "srli", "sra", "srai",
       "slt", "slti", "sltu", "sltiu", "lui", "auipc", "jal", "jalr",
       "beq", "bne", "blt", "bge", "bltu", "bgeu"] ∧
    requiredMnemonics.length = 37 ∧
    "ecall" ∉ requiredMnemonics ∧
    "ebreak" ∉ requiredMnemonics ∧
    "fence" ∉ requiredMnemonics ∧
    ∀ listing : List String,
      (∀ m ∈ requiredMnemonics, mnemonicPresent m listing = true) →
      coverageExit requiredMnemonics listing = 0 := by
  refine ⟨rfl, rfl, by decide, by decide, by decide, ?_⟩
  intro listing hall
  unfold coverageExit
  have hc : missingCount requiredMnemonics listing = 0 := by
    rw [missingCount_eq_length]
    have hnil : requiredMnemonics.filter (fun m => !mnemonicPresent m listing) = [] := by
      rw [List.filter_eq_nil_iff]
      intro m hm
      simp [hall m hm]
    rw [hnil]
    rfl
  rw [hc]
  rfl

/-- Witness for C10: a listing containing each required mnemonic on its
own line, plus unrelated lines, passes with exit status 0. -/
theorem required_mnemonic_set_fixed_witness :
    coverageExit requiredMnemonics (requiredMnemonics ++ ["ecall", "ebreak", "fence"]) = 0 :=
  required_mnemonic_set_fixed.2.2.2.2.2
    (requiredMnemonics ++ ["ecall", "ebreak", "fence"]) (by decide)
